import Mathlib

/-!
# Verification of the ALNS search engine (`src/alns/ALNS.py`)

A shallow embedding of the adaptive large neighbourhood search engine of
this repository, translated from `src/alns/ALNS.py`, together with proofs
and refutations of the specification's claims about it.

Modelling conventions:

* A Python `State` object is modelled by the record `AState`.  The engine
  touches a solution only through `objective()`, `n_served_customers()`
  and the `cost` attribute; the latter two are `Option`-valued so that a
  state which does not provide them (Python duck typing) can be modelled —
  accessing a missing attribute raises `PyErr.attributeError`, as in Python.
* The shared `numpy` random generator `self._rng` is modelled abstractly as
  a position `Rng := ℕ` in a random stream.  Every collaborator that
  receives the generator may consume part of the stream, i.e. it returns a
  new `Rng` alongside its result; the threading order in the embedding
  follows the call order of the source exactly.
* Stateful collaborators (the operator-selection scheme, the acceptance
  criterion) carry explicit internal-state types `σ` and `α`.
* `time.perf_counter()` is modelled by a caller-supplied `clock : ℕ → ℚ`
  read at successive indices.
* Errors (`ValueError`, `AttributeError`, `IndexError`) are modelled by
  `Except PyErr`.  The embedding additionally records, as ghost data, the
  ordered list of collaborator invocations (`Event`) and per-iteration
  observations (outcome sequence, `(best, curr)` trajectory, candidate
  objectives); these observations are written by the loop exactly where
  the corresponding source line executes and carry no information back
  into the computation.
-/

/-- The four evaluation-outcome tags.  Modelled from the spec:
`alns/Outcome.py` is not part of the sources; §3 of the spec defines
`Outcome` as the four tags BEST, BETTER, ACCEPT, REJECT. -/
inductive Outcome where
  | BEST
  | BETTER
  | ACCEPT
  | REJECT
deriving DecidableEq, Repr

/-- Python exceptions that the engine can raise. -/
inductive PyErr where
  | valueError (msg : String)
  | attributeError (attr : String)
  | indexError
  | osError (kind : String)
deriving DecidableEq, Repr

/-- Abstract position in the single shared random stream (`self._rng`). -/
abbrev Rng := ℕ

/-- A solution `State`, opaque to the engine except for its `objective()`
value, its (optional) `n_served_customers()` diagnostic count, and its
(optional) `cost` attribute.  `none` models a Python object that does not
provide the corresponding attribute. -/
structure AState where
  objectiveVal : ℚ
  nServedVal : Option ℤ
  costVal : Option ℤ
deriving DecidableEq, Repr

/-- `state.objective()`. -/
def AState.objective (s : AState) : ℚ := s.objectiveVal

/-- A destroy or repair operator: `(state, rng, **kwargs) -> newState`.
It receives the shared generator and may consume part of the stream. -/
abbrev Op := AState → Rng → AState × Rng

/-- An outcome callback: `(state, rng, **kwargs) -> None`.  The returned
`AState` models the sanctioned in-place mutation of the passed candidate. -/
abbrev Callback := AState → Rng → AState × Rng

/-- Insertion into an insertion-ordered Python `dict`: re-inserting an
existing key overwrites its value in place, keeping the original position;
a new key is appended at the end. -/
def dictInsert (k : String) (v : Op) : List (String × Op) → List (String × Op)
  | [] => [(k, v)]
  | (k', v') :: rest =>
      if k' = k then (k, v) :: rest else (k', v') :: dictInsert k v rest

/-- Python `dict` lookup. -/
def dictGet (k : String) : List (String × Op) → Option Op
  | [] => none
  | (k', v') :: rest => if k' = k then some v' else dictGet k rest

/-- The engine-owned state of an `ALNS` instance: the stored generator
`self._rng`, the two insertion-ordered operator registries `self._d_ops`
and `self._r_ops`, and the outcome-callback table `self._on_outcome`. -/
structure ALNSInstance where
  rng : Rng
  dOps : List (String × Op)
  rOps : List (String × Op)
  onOutcome : Outcome → Option Callback

/-- `ALNS.add_destroy_operator(op, name)`: the key is
`op.__name__ if name is None else name` — any non-`None` name is used
verbatim, including the empty string.  `opName` stands for `op.__name__`. -/
def addDestroyOperator (a : ALNSInstance) (op : Op) (opName : String)
    (name : Option String) : ALNSInstance :=
  { a with dOps := dictInsert (match name with
      | none => opName
      | some s => s) op a.dOps }

/-- `ALNS.add_repair_operator(op, name)`: the key is
`name if name else op.__name__` — Python truthiness, so both `None` and
the empty string fall back to `op.__name__`. -/
def addRepairOperator (a : ALNSInstance) (op : Op) (opName : String)
    (name : Option String) : ALNSInstance :=
  { a with rOps := dictInsert (match name with
      | none => opName
      | some s => if s = "" then opName else s) op a.rOps }

instance {e b : Type} [DecidableEq e] [DecidableEq b] : DecidableEq (Except e b)
  | .error a, .error c =>
      if h : a = c then .isTrue (by subst h; rfl)
      else .isFalse (fun hh => h (by cases hh; rfl))
  | .error _, .ok _ => .isFalse (fun hh => by cases hh)
  | .ok _, .error _ => .isFalse (fun hh => by cases hh)
  | .ok a, .ok c =>
      if h : a = c then .isTrue (by subst h; rfl)
      else .isFalse (fun hh => h (by cases hh; rfl))

/-- Run statistics.  Modelled from the spec: `alns/Statistics.py` is not in
the sources; §3 defines `Statistics` as an ordered sequence of objective
values, an ordered sequence of timestamps, and per-operator-per-outcome
occurrence counts kept separately for destroy and repair operators. -/
structure Statistics where
  objectives : List ℚ
  runtimes : List ℚ
  destroyCounts : List ((String × Outcome) × ℕ)
  repairCounts : List ((String × Outcome) × ℕ)
deriving DecidableEq, Repr

/-- Increment the counter stored under `key` (insertion-ordered mapping). -/
def bumpCount (key : String × Outcome) :
    List ((String × Outcome) × ℕ) → List ((String × Outcome) × ℕ)
  | [] => [(key, 1)]
  | (k, n) :: rest =>
      if k = key then (k, n + 1) :: rest else (k, n) :: bumpCount key rest

/-- `stats.collect_objective(obj)`. -/
def Statistics.collectObjective (st : Statistics) (x : ℚ) : Statistics :=
  { st with objectives := st.objectives ++ [x] }

/-- `stats.collect_runtime(t)`. -/
def Statistics.collectRuntime (st : Statistics) (t : ℚ) : Statistics :=
  { st with runtimes := st.runtimes ++ [t] }

/-- `stats.collect_destroy_operator(name, outcome)`. -/
def Statistics.collectDestroyOperator (st : Statistics) (name : String)
    (o : Outcome) : Statistics :=
  { st with destroyCounts := bumpCount (name, o) st.destroyCounts }

/-- `stats.collect_repair_operator(name, outcome)`. -/
def Statistics.collectRepairOperator (st : Statistics) (name : String)
    (o : Outcome) : Statistics :=
  { st with repairCounts := bumpCount (name, o) st.repairCounts }

/-- An operator-selection scheme with internal adaptive state `σ`.
Modelled from the spec: `alns/select` is not in the sources; §6 gives
`select(rng, best, curr) -> (destroyIndex, repairIndex)` and
`update(cand, destroyIndex, repairIndex, outcome) -> void`. -/
structure OperatorSelectionScheme (σ : Type) where
  call : σ → Rng → AState → AState → (ℕ × ℕ) × Rng
  update : σ → AState → ℕ → ℕ → Outcome → σ

/-- An acceptance criterion with internal state `α` (e.g. an annealing
temperature).  Modelled from the spec: `alns/accept` is not in the sources;
§6 gives `decide(rng, best, curr, cand) -> boolean`. -/
structure AcceptanceCriterion (α : Type) where
  call : α → Rng → AState → AState → AState → (Bool × α) × Rng

/-- A stopping criterion.  Modelled from the spec: `alns/stop` is not in
the sources; the engine supports exactly one kind, a fixed
maximum-iteration budget, whose instances carry the `_max_iterations`
attribute read at `ALNS.py:292`.  `otherKind` stands for a criterion of
any other kind, which does not carry that attribute. -/
inductive StoppingCriterion where
  | maxIterations (maxIter : ℕ)
  | otherKind
deriving DecidableEq, Repr

/-- Ghost observation: one collaborator invocation by the engine. -/
inductive Event where
  | stopCall
  | selectCall
  | destroyCall
  | repairCall
  | acceptCall
  | callbackCall
deriving DecidableEq, Repr

/-- The outcome computation of `ALNS._determine_outcome` once the
acceptance verdict is known (`ALNS.py:441-453`):

    outcome = Outcome.REJECT
    if accept(...):                       # accept candidate
        outcome = Outcome.ACCEPT
        if cand.objective() < curr.objective():
            outcome = Outcome.BETTER
    if cand.objective() < best.objective():  # candidate is new best
        outcome = Outcome.BEST
-/
def classifyOutcome (accepted : Bool) (best curr cand : AState) : Outcome :=
  let afterAccept :=
    if accepted then
      if cand.objective < curr.objective then Outcome.BETTER else Outcome.ACCEPT
    else Outcome.REJECT
  if cand.objective < best.objective then Outcome.BEST else afterAccept

/-- `ALNS._determine_outcome(accept, best, curr, cand)`: invokes the
acceptance criterion on the shared generator, then classifies. -/
def determineOutcome {α : Type} (acc : AcceptanceCriterion α) (accS : α)
    (rng : Rng) (best curr cand : AState) : Outcome × α × Rng :=
  let ((accepted, accS'), rng') := acc.call accS rng best curr cand
  (classifyOutcome accepted best curr cand, accS', rng')

/-- Value of `ALNS._eval_cand`: new best, new curr, the outcome, plus the
candidate object after the callback's in-place mutation and the threaded
collaborator states. -/
structure EvalResult (α : Type) where
  best : AState
  curr : AState
  outcome : Outcome
  cand : AState
  accS : α
  rng : Rng

/-- `ALNS._eval_cand` (`ALNS.py:388-429`): determine the outcome, invoke
the registered callback for it (which may mutate the candidate in place —
the mutated object is what every later use of `cand` sees), then return
the new `(best, curr)` pair according to the outcome. -/
def evalCand {α : Type} (a : ALNSInstance) (acc : AcceptanceCriterion α)
    (accS : α) (rng : Rng) (best curr cand : AState) : EvalResult α :=
  let (outcome, accS', rng₁) := determineOutcome acc accS rng best curr cand
  let (cand', rng₂) :=
    match a.onOutcome outcome with
    | some f => f cand rng₁
    | none => (cand, rng₁)
  if outcome = Outcome.BEST then ⟨cand', cand', outcome, cand', accS', rng₂⟩
  else if outcome = Outcome.REJECT then ⟨best, curr, outcome, cand', accS', rng₂⟩
  else ⟨best, cand', outcome, cand', accS', rng₂⟩

/-- `m[r, c] += v` on an integer matrix (numpy in-place add).  The loop
only ever writes in bounds; out-of-range indices leave `m` unchanged. -/
def matAdd (m : List (List ℤ)) (r c : ℕ) (v : ℤ) : List (List ℤ) :=
  match m.get? r with
  | none => m
  | some row => m.set r (row.set c (row.getD c 0 + v))

/-- `m[r, -1] = v` on an integer matrix (numpy write to the last column). -/
def matSetLast (m : List (List ℤ)) (r : ℕ) (v : ℤ) : List (List ℤ) :=
  match m.get? r with
  | none => m
  | some row => m.set r (row.set (row.length - 1) v)

/-- `m[0, :] = 0` (`ALNS.py:295,300`): numpy raises `IndexError` when the
matrix has zero rows, i.e. when the iteration budget is `0`. -/
def setRow0 (m : List (List ℤ)) (cols : ℕ) : Except PyErr (List (List ℤ)) :=
  if m.length = 0 then .error .indexError
  else .ok (m.set 0 (List.replicate cols (0 : ℤ)))

/-- The mutable state of one pass of the `while` loop of `ALNS.iterate`,
plus ghost observations (`events`, `outcomes`, `pairTrace`, `candTrace`)
recorded where the corresponding source line executes. -/
structure LoopSt (σ α : Type) where
  best : AState
  curr : AState
  selS : σ
  accS : α
  rng : Rng
  clockIdx : ℕ
  iteration : ℕ
  stats : Statistics
  dLog : List (List ℤ)
  rLog : List (List ℤ)
  events : List Event
  outcomes : List Outcome
  pairTrace : List (AState × AState)
  candTrace : List ℚ
deriving DecidableEq

/-- One iteration of the `while` loop body of `ALNS.iterate`
(`ALNS.py:303-350`), excluding the stop check.  Errors carry the ghost
event log accumulated up to the failing call. -/
def iterBody {σ α : Type} (a : ALNSInstance) (sel : OperatorSelectionScheme σ)
    (acc : AcceptanceCriterion α) (clock : ℕ → ℚ) (st : LoopSt σ α) :
    Except (PyErr × List Event) (LoopSt σ α) :=
  match sel.call st.selS st.rng st.best st.curr with
  | ((dIdx, rIdx), rng₀) =>
  match a.dOps.get? dIdx with
  | none => .error (.indexError, st.events ++ [Event.selectCall])
  | some (dName, dOp) =>
  match a.rOps.get? rIdx with
  | none => .error (.indexError, st.events ++ [Event.selectCall])
  | some (rName, rOp) =>
  match st.curr.nServedVal with
  | none => .error (.attributeError "n_served_customers",
      st.events ++ [Event.selectCall])
  | some n₁ =>
  match dOp st.curr rng₀ with
  | (destroyed, rng₁) =>
  match destroyed.nServedVal with
  | none => .error (.attributeError "n_served_customers",
      st.events ++ [Event.selectCall, Event.destroyCall])
  | some n₂ =>
  match rOp destroyed rng₁ with
  | (cand, rng₂) =>
  match cand.nServedVal with
  | none => .error (.attributeError "n_served_customers",
      st.events ++ [Event.selectCall, Event.destroyCall, Event.repairCall])
  | some n₃ =>
  match (evalCand a acc st.accS rng₂ st.best st.curr cand).curr.costVal with
  | none => .error (.attributeError "cost",
      st.events ++ ([Event.selectCall, Event.destroyCall, Event.repairCall,
          Event.acceptCall] ++
        (if (a.onOutcome (evalCand a acc st.accS rng₂ st.best
            st.curr cand).outcome).isSome then [Event.callbackCall] else [])))
  | some cost =>
  let r := evalCand a acc st.accS rng₂ st.best st.curr cand
  let dLog₂ := matSetLast (matAdd st.dLog st.iteration dIdx (n₁ - n₂))
    st.iteration cost
  let rLog₂ := matSetLast (matAdd st.rLog st.iteration rIdx (n₃ - n₂))
    st.iteration cost
  let selS' := sel.update st.selS r.cand dIdx rIdx r.outcome
  let stats' := (((st.stats.collectObjective r.curr.objective
    ).collectDestroyOperator dName r.outcome
    ).collectRepairOperator rName r.outcome
    ).collectRuntime (clock st.clockIdx)
  .ok { best := r.best, curr := r.curr, selS := selS', accS := r.accS,
        rng := r.rng, clockIdx := st.clockIdx + 1,
        iteration := st.iteration + 1, stats := stats',
        dLog := dLog₂, rLog := rLog₂,
        events := st.events ++
          ([Event.selectCall, Event.destroyCall, Event.repairCall,
              Event.acceptCall] ++
            (if (a.onOutcome r.outcome).isSome then [Event.callbackCall] else [])),
        outcomes := st.outcomes ++ [r.outcome],
        pairTrace := st.pairTrace ++ [(r.best, r.curr)],
        candTrace := st.candTrace ++ [cand.objective] }

/-- The `while not stop(...)` loop of `ALNS.iterate`, driven by the
remaining iteration budget (the only supported stopping criterion is the
fixed maximum-iteration budget, which ignores the generator and states
passed to it and stops after `maxIter` iterations).  A `stopCall` event is
recorded at every check, including the final one. -/
def iterLoop {σ α : Type} (a : ALNSInstance) (sel : OperatorSelectionScheme σ)
    (acc : AcceptanceCriterion α) (clock : ℕ → ℚ) :
    ℕ → LoopSt σ α → Except (PyErr × List Event) (LoopSt σ α)
  | 0, st => .ok { st with events := st.events ++ [Event.stopCall] }
  | fuel + 1, st =>
      match iterBody a sel acc clock
        { st with events := st.events ++ [Event.stopCall] } with
      | .error e => .error e
      | .ok st' => iterLoop a sel acc clock fuel st'

/-- `Result(best, statistics)`.  Modelled from the spec: `alns/Result.py`
is not in the sources; the §4.2 contract pairs the best solution with the
run statistics. -/
structure Result where
  best : AState
  statistics : Statistics
deriving DecidableEq, Repr

/-- The successful outcome of a run: the three components of the Python
return value `(Result(best, stats), d_operators_log, r_operators_log)`
plus the ghost observations. -/
structure RunOut where
  result : Result
  dLog : List (List ℤ)
  rLog : List (List ℤ)
  outcomes : List Outcome
  pairTrace : List (AState × AState)
  candTrace : List ℚ
deriving DecidableEq, Repr

/-- The value actually returned by the Python function: the three-element
tuple of `ALNS.py:354`. -/
def pyReturn (o : RunOut) : Result × List (List ℤ) × List (List ℤ) :=
  (o.result, o.dLog, o.rLog)

/-- `ALNS.iterate` (`ALNS.py:225-354`): registry check, initial statistics,
operator-log allocation (which reads `stop._max_iterations` and writes row
`0`), then the main loop.  Returns the ghost event log together with
either the raised exception or the run outcome. -/
def iterate {σ α : Type} (a : ALNSInstance) (initialSolution : AState)
    (sel : OperatorSelectionScheme σ) (selS : σ)
    (acc : AcceptanceCriterion α) (accS : α)
    (stop : StoppingCriterion) (clock : ℕ → ℚ) :
    List Event × Except PyErr RunOut :=
  if a.dOps.length = 0 ∨ a.rOps.length = 0 then
    ([], .error (.valueError "Missing destroy or repair operators."))
  else
    match stop with
    | .otherKind => ([], .error (.attributeError "_max_iterations"))
    | .maxIterations maxIter =>
      match setRow0 (List.replicate maxIter
          (List.replicate (a.dOps.length + 1) (0 : ℤ))) (a.dOps.length + 1) with
      | .error e => ([], .error e)
      | .ok dLog₁ =>
      match setRow0 (List.replicate maxIter
          (List.replicate (a.rOps.length + 1) (0 : ℤ))) (a.rOps.length + 1) with
      | .error e => ([], .error e)
      | .ok rLog₁ =>
      match iterLoop a sel acc clock maxIter
        { best := initialSolution, curr := initialSolution, selS := selS,
          accS := accS, rng := a.rng, clockIdx := 1, iteration := 0,
          stats := ⟨[initialSolution.objective], [clock 0], [], []⟩,
          dLog := dLog₁, rLog := rLog₁,
          events := [], outcomes := [], pairTrace := [], candTrace := [] } with
      | .error (e, evs) => (evs, .error e)
      | .ok fin =>
          (fin.events,
           .ok { result := ⟨fin.best, fin.stats⟩, dLog := fin.dLog,
                 rLog := fin.rLog, outcomes := fin.outcomes,
                 pairTrace := fin.pairTrace, candTrace := fin.candTrace })

/-! ## Filesystem model for `ALNS.__init__` (`ALNS.py:136-152`)

Paths are modelled as segment lists (`"./plots/insertion_screenshots"`
becomes `["plots", "insertion_screenshots"]`, the leading `./` dropped); a
regular file is a `(containing directory, file name)` pair. -/

/-- A directory path as a list of segments. -/
abbrev DirPath := List String

/-- A filesystem: the set of existing directories and regular files. -/
structure FileSys where
  dirs : List DirPath
  files : List (DirPath × String)
deriving DecidableEq, Repr

/-- `self.screenshots_folder = "./plots/insertion_screenshots"`. -/
def screenshotsFolder : DirPath := ["plots", "insertion_screenshots"]

/-- `os.path.exists(p)`: true when `p` names an existing directory or an
existing regular file. -/
def pathExists (fs : FileSys) (p : DirPath) : Bool :=
  fs.dirs.contains p || fs.files.any (fun f => f.1 ++ [f.2] = p)

/-- `os.listdir(d)`: the names of the entries of directory `d` — its
regular files and its immediate subdirectories. -/
def listdir (fs : FileSys) (d : DirPath) : List String :=
  (fs.files.filter (fun f => f.1 = d)).map (fun f => f.2) ++
    ((fs.dirs.filter (fun d' => d'.dropLast = d ∧ d' ≠ [])).map
      (fun d' => d'.getLastD ""))

/-- `os.makedirs(p)`: create `p` together with every missing intermediate
directory. -/
def makedirs (fs : FileSys) (p : DirPath) : FileSys :=
  let created := ((List.range p.length).map (fun k => p.take (k + 1))).filter
    (fun q => ¬ fs.dirs.contains q)
  { fs with dirs := fs.dirs ++ created }

/-- The removal loop
`for file in os.listdir(folder): os.remove(f"<folder>/{file}")`:
`os.remove` deletes a regular file, raises `IsADirectoryError` on a
directory, and `FileNotFoundError` on a missing entry. -/
def removeFiles : FileSys → List String → Except PyErr FileSys
  | fs, [] => .ok fs
  | fs, n :: rest =>
      if (screenshotsFolder, n) ∈ fs.files then
        removeFiles { fs with files := fs.files.erase (screenshotsFolder, n) } rest
      else if fs.dirs.contains (screenshotsFolder ++ [n]) then
        .error (.osError "IsADirectoryError")
      else
        .error (.osError "FileNotFoundError")

/-- `ALNS.__init__(rng)` (`ALNS.py:136-152`): store the generator, start
with empty operator registries and an empty callback table, then create
the screenshots directory if it does not exist, and otherwise delete every
entry currently listed inside it. -/
def alnsInit (rng : Rng) (fs : FileSys) : Except PyErr (ALNSInstance × FileSys) :=
  let a : ALNSInstance := ⟨rng, [], [], fun _ => none⟩
  if pathExists fs screenshotsFolder = false then
    .ok (a, makedirs fs screenshotsFolder)
  else
    match removeFiles fs (listdir fs screenshotsFolder) with
    | .error e => .error e
    | .ok fs' => .ok (a, fs')

/-! ## Concrete collaborators used by witnesses and counterexamples

All rational values are literals: the engine itself performs no rational
arithmetic, so runs built from these evaluate inside the kernel. -/

/-- A solution state exposing all three attributes. -/
def stW (q : ℚ) : AState := ⟨q, some 3, some 7⟩

/-- A solution state exposing only `objective()`. -/
def stBare (q : ℚ) : AState := ⟨q, none, none⟩

/-- A destroy operator returning a fixed partial solution. -/
def dOpW : Op := fun _ r => (⟨20, some 1, some 7⟩, r + 1)

/-- A repair operator returning a fixed candidate of objective `9`. -/
def rOpW : Op := fun _ r => (⟨9, some 3, some 5⟩, r + 1)

/-- A repair operator returning a fixed candidate of objective `15`
(worse than the initial solution used by the witnesses). -/
def rOpWorse : Op := fun _ r => (⟨15, some 3, some 5⟩, r + 1)

/-- Like `rOpWorse` but with a different served-customers count and equal
objective and cost. -/
def rOpWorse' : Op := fun _ r => (⟨15, some 2, some 5⟩, r + 1)

/-- A selection scheme that always picks the first operators. -/
def selW : OperatorSelectionScheme Unit :=
  ⟨fun _ r _ _ => ((0, 0), r + 1), fun s _ _ _ _ => s⟩

/-- An acceptance criterion that accepts every candidate. -/
def accW : AcceptanceCriterion Unit :=
  ⟨fun s r _ _ _ => ((true, s), r + 1)⟩

/-- An acceptance criterion that rejects every candidate. -/
def accRej : AcceptanceCriterion Unit :=
  ⟨fun s r _ _ _ => ((false, s), r + 1)⟩

/-- A basic instance: one destroy and one repair operator, no callbacks. -/
def aW : ALNSInstance := ⟨0, [("d", dOpW)], [("r", rOpW)], fun _ => none⟩

/-- Like `aW` but with a worse-candidate repair operator. -/
def aWorse : ALNSInstance := ⟨0, [("d", dOpW)], [("r", rOpWorse)], fun _ => none⟩

/-- Like `aWorse` but with `rOpWorse'`: identical objectives and costs,
different served-customers count. -/
def aWorse' : ALNSInstance := ⟨0, [("d", dOpW)], [("r", rOpWorse')], fun _ => none⟩

/-- An `on_best` callback that rewrites the candidate's objective to `30`
in place. -/
def cbRaise : Callback := fun s r => (⟨30, s.nServedVal, s.costVal⟩, r)

/-- Like `aW` but with `cbRaise` registered for the `BEST` outcome. -/
def aCb : ALNSInstance :=
  ⟨0, [("d", dOpW)], [("r", rOpW)],
   fun o => if o = Outcome.BEST then some cbRaise else none⟩

/-- An instance with no registered operators. -/
def aEmpty : ALNSInstance := ⟨0, [], [], fun _ => none⟩

/-- A constant clock. -/
def clkW : ℕ → ℚ := fun _ => 0

/-- The natural-number clock (cast, no rational arithmetic). -/
def clkId : ℕ → ℚ := fun n => (n : ℚ)

/-- Every registered callback preserves the candidate's objective value. -/
def CallbackObjPreserving (a : ALNSInstance) : Prop :=
  ∀ o f, a.onOutcome o = some f → ∀ s r, ((f s r).1).objectiveVal = s.objectiveVal

/-- The state exposes `n_served_customers()` and `cost` in addition to
`objective()`. -/
def ExposesAll (s : AState) : Prop :=
  s.nServedVal.isSome = true ∧ s.costVal.isSome = true

/-- A concrete loop state used by witnesses. -/
def st0W : LoopSt Unit Unit :=
  { best := stW 10, curr := stW 10, selS := (), accS := (), rng := 0,
    clockIdx := 1, iteration := 0, stats := ⟨[10], [0], [], []⟩,
    dLog := [[0, 0]], rLog := [[0, 0]], events := [], outcomes := [],
    pairTrace := [], candTrace := [] }

/-- The loop state produced by one successful body iteration on `st0W`. -/
def stB : LoopSt Unit Unit :=
  (iterBody aW selW accW clkW st0W).toOption.getD st0W

/-- The run outcome of a concrete one-iteration run used by witnesses. -/
def outW : RunOut :=
  ((iterate aW (stW 10) selW () accW () (.maxIterations 1) clkW).2.toOption).getD
    ⟨⟨stW 10, ⟨[], [], [], []⟩⟩, [], [], [], [], []⟩

/-- The ghost event log of the same concrete run. -/
def evsW : List Event :=
  (iterate aW (stW 10) selW () accW () (.maxIterations 1) clkW).1

/-- A concrete filesystem in which the screenshots directory exists and
holds one file, with an unrelated file elsewhere. -/
def fsW : FileSys :=
  ⟨[["plots"], ["plots", "insertion_screenshots"]],
   [(["plots", "insertion_screenshots"], "shot0.png"), (["outputs"], "keep.txt")]⟩

/-- Replace the runtime trace of a statistics record (observation helper:
the runtime trace is the only clock-dependent output of a run). -/
def Statistics.withRuntimes (st : Statistics) (rt : List ℚ) : Statistics :=
  { st with runtimes := rt }

/-- Replace the runtime trace inside a loop state. -/
def setRuntimes {σ α : Type} (st : LoopSt σ α) (rt : List ℚ) : LoopSt σ α :=
  { st with stats := st.stats.withRuntimes rt }

/-- Erase the runtime trace of a run outcome: every other component — the
best solution, objective trace, operator counters, operator logs, outcome
sequence, `(best, curr)` trajectory and candidate objectives — is kept. -/
def RunOut.stripRt (o : RunOut) : RunOut :=
  { o with result := ⟨o.result.best, o.result.statistics.withRuntimes []⟩ }

/-! ## Lemmas about the outcome classification and `_eval_cand` -/

theorem classifyOutcome_eq_BEST_iff (acpt : Bool) (best curr cand : AState) :
    classifyOutcome acpt best curr cand = Outcome.BEST ↔
      cand.objective < best.objective := by
  unfold classifyOutcome
  by_cases hb : cand.objective < best.objective <;>
    by_cases hc : cand.objective < curr.objective <;>
    cases acpt <;> simp [hb, hc]

theorem classifyOutcome_eq_BETTER_iff (acpt : Bool) (best curr cand : AState) :
    classifyOutcome acpt best curr cand = Outcome.BETTER ↔
      ¬ cand.objective < best.objective ∧ acpt = true ∧
        cand.objective < curr.objective := by
  unfold classifyOutcome
  by_cases hb : cand.objective < best.objective <;>
    by_cases hc : cand.objective < curr.objective <;>
    cases acpt <;> simp [hb, hc]

theorem classifyOutcome_eq_ACCEPT_iff (acpt : Bool) (best curr cand : AState) :
    classifyOutcome acpt best curr cand = Outcome.ACCEPT ↔
      ¬ cand.objective < best.objective ∧ acpt = true ∧
        ¬ cand.objective < curr.objective := by
  unfold classifyOutcome
  by_cases hb : cand.objective < best.objective <;>
    by_cases hc : cand.objective < curr.objective <;>
    cases acpt <;> simp [hb, hc]

theorem classifyOutcome_eq_REJECT_iff (acpt : Bool) (best curr cand : AState) :
    classifyOutcome acpt best curr cand = Outcome.REJECT ↔
      ¬ cand.objective < best.objective ∧ acpt = false := by
  unfold classifyOutcome
  by_cases hb : cand.objective < best.objective <;>
    by_cases hc : cand.objective < curr.objective <;>
    cases acpt <;> simp [hb, hc]

theorem dictGet_dictInsert (k : String) (v : Op) (l : List (String × Op)) :
    dictGet k (dictInsert k v l) = some v := by
  induction l with
  | nil => simp [dictInsert, dictGet]
  | cons hd tl ih =>
      by_cases h : hd.1 = k
      · simp [dictInsert, dictGet, h]
      · simp [dictInsert, dictGet, h, ih]

theorem dictGet_dictInsert_ne (k k' : String) (hk : k' ≠ k) (v : Op)
    (l : List (String × Op)) :
    dictGet k' (dictInsert k v l) = dictGet k' l := by
  induction l with
  | nil => simp [dictInsert, dictGet, Ne.symm hk]
  | cons hd tl ih =>
      by_cases h : hd.1 = k
      · simp [dictInsert, dictGet, h, Ne.symm hk, hk]
      · by_cases h' : hd.1 = k'
        · simp [dictInsert, dictGet, h, h', hk]
        · simp [dictInsert, dictGet, h, h', ih]

theorem evalCand_outcome {α : Type} (a : ALNSInstance) (acc : AcceptanceCriterion α)
    (accS : α) (rng : Rng) (best curr cand : AState) :
    (evalCand a acc accS rng best curr cand).outcome =
      classifyOutcome ((acc.call accS rng best curr cand).1).1 best curr cand := by
  rcases hacc : acc.call accS rng best curr cand with ⟨⟨acpt, aS⟩, r1⟩
  simp only [evalCand, determineOutcome, hacc]
  cases honb : a.onOutcome (classifyOutcome acpt best curr cand) <;>
    simp only [honb] <;> split_ifs <;> simp_all

theorem evalCand_transition {α : Type} (a : ALNSInstance) (acc : AcceptanceCriterion α)
    (accS : α) (rng : Rng) (best curr cand : AState) :
    ((evalCand a acc accS rng best curr cand).outcome = Outcome.BEST →
      ((evalCand a acc accS rng best curr cand).best,
       (evalCand a acc accS rng best curr cand).curr) =
        ((evalCand a acc accS rng best curr cand).cand,
         (evalCand a acc accS rng best curr cand).cand))
    ∧ (((evalCand a acc accS rng best curr cand).outcome = Outcome.BETTER ∨
        (evalCand a acc accS rng best curr cand).outcome = Outcome.ACCEPT) →
      ((evalCand a acc accS rng best curr cand).best,
       (evalCand a acc accS rng best curr cand).curr) =
        (best, (evalCand a acc accS rng best curr cand).cand))
    ∧ ((evalCand a acc accS rng best curr cand).outcome = Outcome.REJECT →
      ((evalCand a acc accS rng best curr cand).best,
       (evalCand a acc accS rng best curr cand).curr) = (best, curr)) := by
  rcases hacc : acc.call accS rng best curr cand with ⟨⟨acpt, aS⟩, r1⟩
  simp only [evalCand, determineOutcome, hacc]
  cases honb : a.onOutcome (classifyOutcome acpt best curr cand) <;>
    simp only [honb] <;> split_ifs <;> simp_all

theorem evalCand_best_min {α : Type} (a : ALNSInstance) (acc : AcceptanceCriterion α)
    (accS : α) (rng : Rng) (best curr cand : AState)
    (hcb : CallbackObjPreserving a) :
    (evalCand a acc accS rng best curr cand).best.objectiveVal =
      min best.objectiveVal cand.objectiveVal := by
  rcases hacc : acc.call accS rng best curr cand with ⟨⟨acpt, aS⟩, r1⟩
  have hBest : ∀ h : classifyOutcome acpt best curr cand = Outcome.BEST,
      cand.objectiveVal < best.objectiveVal := fun h => by
    have := (classifyOutcome_eq_BEST_iff acpt best curr cand).mp h
    simpa [AState.objective] using this
  have hNotBest : ∀ _ : ¬ classifyOutcome acpt best curr cand = Outcome.BEST,
      best.objectiveVal ≤ cand.objectiveVal := fun h => by
    by_contra hc
    exact h ((classifyOutcome_eq_BEST_iff acpt best curr cand).mpr
      (by simpa [AState.objective] using not_le.mp hc))
  simp only [evalCand, determineOutcome, hacc]
  cases honb : a.onOutcome (classifyOutcome acpt best curr cand) with
  | none =>
      simp only [honb]
      split_ifs with h1 h2
      · simp [min_eq_right (hBest h1).le]
      · simp [min_eq_left (hNotBest h1)]
      · simp [min_eq_left (hNotBest h1)]
  | some f =>
      have hp := hcb _ f honb cand r1
      simp only [honb]
      split_ifs with h1 h2
      · simp [hp, min_eq_right (hBest h1).le]
      · simp [min_eq_left (hNotBest h1)]
      · simp [min_eq_left (hNotBest h1)]

theorem evalCand_exposesAll {α : Type} (a : ALNSInstance) (acc : AcceptanceCriterion α)
    (accS : α) (rng : Rng) (best curr cand : AState)
    (hbest : ExposesAll best) (hcurr : ExposesAll curr) (hcand : ExposesAll cand)
    (hcb : ∀ o f, a.onOutcome o = some f → ∀ s r, ExposesAll ((f s r).1)) :
    ExposesAll (evalCand a acc accS rng best curr cand).best
    ∧ ExposesAll (evalCand a acc accS rng best curr cand).curr
    ∧ ExposesAll (evalCand a acc accS rng best curr cand).cand := by
  rcases hacc : acc.call accS rng best curr cand with ⟨⟨acpt, aS⟩, r1⟩
  simp only [evalCand, determineOutcome, hacc]
  cases honb : a.onOutcome (classifyOutcome acpt best curr cand) with
  | none => simp only [honb]; split_ifs <;> exact ⟨by assumption, by assumption, by assumption⟩
  | some f =>
      have hp := hcb _ f honb cand r1
      simp only [honb]
      split_ifs <;> exact ⟨by assumption, by assumption, by assumption⟩

/-! ## Lemmas about the loop body and the loop -/

theorem matAdd_length (m : List (List ℤ)) (r c : ℕ) (v : ℤ) :
    (matAdd m r c v).length = m.length := by
  unfold matAdd
  split <;> simp

theorem matSetLast_length (m : List (List ℤ)) (r : ℕ) (v : ℤ) :
    (matSetLast m r v).length = m.length := by
  unfold matSetLast
  split <;> simp

theorem matAdd_widths (m : List (List ℤ)) (r c : ℕ) (v : ℤ) (w : ℕ)
    (hw : ∀ row ∈ m, row.length = w) :
    ∀ row ∈ matAdd m r c v, row.length = w := by
  unfold matAdd
  split
  · exact hw
  · intro row hrow
    rcases List.mem_or_eq_of_mem_set hrow with hmem | heq
    · exact hw _ hmem
    · subst heq
      rename_i row₀ hget
      simp [hw row₀ (List.get?_mem hget)]

theorem matSetLast_widths (m : List (List ℤ)) (r : ℕ) (v : ℤ) (w : ℕ)
    (hw : ∀ row ∈ m, row.length = w) :
    ∀ row ∈ matSetLast m r v, row.length = w := by
  unfold matSetLast
  split
  · exact hw
  · intro row hrow
    rcases List.mem_or_eq_of_mem_set hrow with hmem | heq
    · exact hw _ hmem
    · subst heq
      rename_i row₀ hget
      simp [hw row₀ (List.get?_mem hget)]

theorem iterBody_ok_spec {σ α : Type} (a : ALNSInstance) (sel : OperatorSelectionScheme σ)
    (acc : AcceptanceCriterion α) (clock : ℕ → ℚ) (st st' : LoopSt σ α)
    (h : iterBody a sel acc clock st = .ok st') :
    st'.stats.objectives = st.stats.objectives ++ [st'.curr.objectiveVal]
    ∧ st'.stats.runtimes = st.stats.runtimes ++ [clock st.clockIdx]
    ∧ st'.clockIdx = st.clockIdx + 1
    ∧ st'.iteration = st.iteration + 1
    ∧ st'.dLog.length = st.dLog.length
    ∧ st'.rLog.length = st.rLog.length
    ∧ (∀ w, (∀ row ∈ st.dLog, row.length = w) → ∀ row ∈ st'.dLog, row.length = w)
    ∧ (∀ w, (∀ row ∈ st.rLog, row.length = w) → ∀ row ∈ st'.rLog, row.length = w)
    ∧ (∃ q, st'.candTrace = st.candTrace ++ [q]
        ∧ st'.pairTrace = st.pairTrace ++ [(st'.best, st'.curr)]
        ∧ (CallbackObjPreserving a → st'.best.objectiveVal = min st.best.objectiveVal q))
    ∧ (∃ tail, st'.events = st.events ++
          ([Event.selectCall, Event.destroyCall, Event.repairCall, Event.acceptCall] ++ tail)
        ∧ (tail = [] ∨ tail = [Event.callbackCall]))
    ∧ st'.outcomes.length = st.outcomes.length + 1 := by
  unfold iterBody at h
  repeat' split at h
  all_goals try exact Except.noConfusion h
  simp only [Except.ok.injEq] at h
  subst h
  refine ⟨by simp [Statistics.collectObjective, Statistics.collectRuntime,
      Statistics.collectDestroyOperator, Statistics.collectRepairOperator, AState.objective],
    by simp [Statistics.collectObjective, Statistics.collectRuntime,
      Statistics.collectDestroyOperator, Statistics.collectRepairOperator],
    rfl, rfl,
    by simp [matAdd_length, matSetLast_length],
    by simp [matAdd_length, matSetLast_length],
    fun w hw => matSetLast_widths _ _ _ _ (matAdd_widths _ _ _ _ _ hw),
    fun w hw => matSetLast_widths _ _ _ _ (matAdd_widths _ _ _ _ _ hw),
    ?_, ?_, by simp⟩
  · refine ⟨_, rfl, rfl, fun hcb => ?_⟩
    exact evalCand_best_min a acc _ _ st.best st.curr _ hcb
  · refine ⟨_, rfl, ?_⟩
    split <;> simp

theorem iterLoop_ok_stats {σ α : Type} (a : ALNSInstance) (sel : OperatorSelectionScheme σ)
    (acc : AcceptanceCriterion α) (clock : ℕ → ℚ) :
    ∀ (fuel : ℕ) (st fin : LoopSt σ α),
      iterLoop a sel acc clock fuel st = .ok fin →
      (∃ l, fin.stats.objectives = st.stats.objectives ++ l ∧ l.length = fuel)
      ∧ fin.stats.runtimes =
          st.stats.runtimes ++ (List.range' st.clockIdx fuel).map clock := by
  intro fuel
  induction fuel with
  | zero =>
      intro st fin h
      unfold iterLoop at h
      simp only [Except.ok.injEq] at h
      subst h
      exact ⟨⟨[], by simp, rfl⟩, by simp⟩
  | succ k ih =>
      intro st fin h
      unfold iterLoop at h
      split at h
      · exact Except.noConfusion h
      · rename_i st₁ heq
        obtain ⟨hobj, hrt, hclk, -⟩ := iterBody_ok_spec a sel acc clock _ _ heq
        obtain ⟨⟨l, hl, hlen⟩, hrt'⟩ := ih _ _ h
        constructor
        · refine ⟨st₁.curr.objectiveVal :: l, ?_, by simp [hlen]⟩
          rw [hl, hobj]
          simp
        · rw [hrt', hrt, hclk]
          simp [List.range'_succ]

theorem iterLoop_ok_logs {σ α : Type} (a : ALNSInstance) (sel : OperatorSelectionScheme σ)
    (acc : AcceptanceCriterion α) (clock : ℕ → ℚ) :
    ∀ (fuel : ℕ) (st fin : LoopSt σ α),
      iterLoop a sel acc clock fuel st = .ok fin →
      fin.dLog.length = st.dLog.length
      ∧ fin.rLog.length = st.rLog.length
      ∧ (∀ w, (∀ row ∈ st.dLog, row.length = w) → ∀ row ∈ fin.dLog, row.length = w)
      ∧ (∀ w, (∀ row ∈ st.rLog, row.length = w) → ∀ row ∈ fin.rLog, row.length = w) := by
  intro fuel
  induction fuel with
  | zero =>
      intro st fin h
      unfold iterLoop at h
      simp only [Except.ok.injEq] at h
      subst h
      exact ⟨rfl, rfl, fun _ hw => hw, fun _ hw => hw⟩
  | succ k ih =>
      intro st fin h
      unfold iterLoop at h
      split at h
      · exact Except.noConfusion h
      · rename_i st₁ heq
        obtain ⟨-, -, -, -, hdl, hrl, hdw, hrw, -⟩ :=
          iterBody_ok_spec a sel acc clock _ _ heq
        obtain ⟨hdl', hrl', hdw', hrw'⟩ := ih _ _ h
        exact ⟨by rw [hdl', hdl], by rw [hrl', hrl],
          fun w hw => hdw' w (hdw w hw), fun w hw => hrw' w (hrw w hw)⟩

theorem chain_le_map_clock (clock : ℕ → ℚ) (hm : Monotone clock) :
    ∀ (n s : ℕ), List.Chain' (· ≤ ·) ((List.range' s n).map clock) := by
  intro n
  induction n with
  | zero => intro s; simp
  | succ k ih =>
      intro s
      rw [List.range'_succ]
      cases k with
      | zero => simp
      | succ j =>
          rw [List.range'_succ, List.map_cons, List.map_cons]
          refine List.Chain'.cons (hm (by omega)) ?_
          rw [← List.map_cons, ← List.range'_succ]
          exact ih (s + 1)

theorem iterLoop_ok_bestmin {σ α : Type} (a : ALNSInstance) (sel : OperatorSelectionScheme σ)
    (acc : AcceptanceCriterion α) (clock : ℕ → ℚ) (initObj : ℚ)
    (hcb : CallbackObjPreserving a) :
    ∀ (fuel : ℕ) (st fin : LoopSt σ α),
      iterLoop a sel acc clock fuel st = .ok fin →
      st.candTrace.length = st.pairTrace.length →
      st.best.objectiveVal = st.candTrace.foldl min initObj →
      (∀ k p, st.pairTrace.get? k = some p →
        p.1.objectiveVal = (st.candTrace.take (k + 1)).foldl min initObj) →
      List.Chain' (fun x y => y ≤ x)
        (initObj :: st.pairTrace.map (fun pr => pr.1.objectiveVal)) →
      (initObj :: st.pairTrace.map (fun pr => pr.1.objectiveVal)).getLast?
        = some st.best.objectiveVal →
      ((∀ k p, fin.pairTrace.get? k = some p →
          p.1.objectiveVal = (fin.candTrace.take (k + 1)).foldl min initObj)
        ∧ List.Chain' (fun x y => y ≤ x)
            (initObj :: fin.pairTrace.map (fun pr => pr.1.objectiveVal))) := by
  intro fuel
  induction fuel with
  | zero =>
      intro st fin h _ _ h3 h4 _
      unfold iterLoop at h
      simp only [Except.ok.injEq] at h
      subst h
      exact ⟨h3, h4⟩
  | succ k ih =>
      intro st fin h h1 h2 h3 h4 h5
      unfold iterLoop at h
      split at h
      · exact Except.noConfusion h
      · rename_i st₁ heq
        obtain ⟨-, -, -, -, -, -, -, -, ⟨q, hct₀, hpt₀, hmin⟩, -, -⟩ :=
          iterBody_ok_spec a sel acc clock _ _ heq
        have hct : st₁.candTrace = st.candTrace ++ [q] := hct₀
        have hpt : st₁.pairTrace = st.pairTrace ++ [(st₁.best, st₁.curr)] := hpt₀
        have hminq : st₁.best.objectiveVal = min st.best.objectiveVal q := hmin hcb
        refine ih _ _ h ?_ ?_ ?_ ?_ ?_
        · simp [hct, hpt, h1]
        · rw [hminq, h2, hct, List.foldl_append]
          simp
        · intro j p hj
          rcases Nat.lt_trichotomy j st.pairTrace.length with hlt | hEq | hgt
          · rw [hpt, List.get?_append hlt] at hj
            rw [hct, List.take_append_of_le_length (by omega)]
            exact h3 j p hj
          · subst hEq
            rw [hpt, List.get?_concat_length] at hj
            injection hj with hj
            subst hj
            rw [hct]
            rw [List.take_of_length_le (by simp [h1])]
            rw [List.foldl_append, hminq, h2]
            simp
          · rw [hpt] at hj
            rw [List.get?_eq_none.mpr (by simp; omega)] at hj
            exact Option.noConfusion hj
        · rw [hpt, List.map_append]
          rw [show initObj :: (st.pairTrace.map (fun pr => pr.1.objectiveVal) ++
              [(st₁.best, st₁.curr)].map (fun pr => pr.1.objectiveVal)) =
            (initObj :: st.pairTrace.map (fun pr => pr.1.objectiveVal)) ++
              [st₁.best.objectiveVal] from by simp]
          rw [List.chain'_append]
          refine ⟨h4, by simp, ?_⟩
          intro x hx y hy
          rw [h5] at hx
          simp only [Option.mem_def, Option.some.injEq] at hx
          simp only [List.head?_cons, Option.mem_def, Option.some.injEq] at hy
          subst hx
          subst hy
          rw [hminq]
          exact min_le_left _ _
        · rw [hpt, List.map_append]
          rw [show initObj :: (st.pairTrace.map (fun pr => pr.1.objectiveVal) ++
              [(st₁.best, st₁.curr)].map (fun pr => pr.1.objectiveVal)) =
            (initObj :: st.pairTrace.map (fun pr => pr.1.objectiveVal)) ++
              [st₁.best.objectiveVal] from by simp]
          rw [List.getLast?_concat]

theorem iterBody_ok_of_exposesAll {σ α : Type} (a : ALNSInstance)
    (sel : OperatorSelectionScheme σ) (acc : AcceptanceCriterion α) (clock : ℕ → ℚ)
    (hsel : ∀ ss r b c, ((sel.call ss r b c).1).1 < a.dOps.length ∧
      ((sel.call ss r b c).1).2 < a.rOps.length)
    (hdop : ∀ p ∈ a.dOps, ∀ s r, ExposesAll ((p.2 s r).1))
    (hrop : ∀ p ∈ a.rOps, ∀ s r, ExposesAll ((p.2 s r).1))
    (hcbf : ∀ o f, a.onOutcome o = some f → ∀ s r, ExposesAll ((f s r).1))
    (st : LoopSt σ α) (hb : ExposesAll st.best) (hc : ExposesAll st.curr) :
    ∃ st', iterBody a sel acc clock st = .ok st'
      ∧ ExposesAll st'.best ∧ ExposesAll st'.curr := by
  obtain ⟨hd, hr⟩ := hsel st.selS st.rng st.best st.curr
  rcases hcall : sel.call st.selS st.rng st.best st.curr with ⟨⟨dIdx, rIdx⟩, rng₀⟩
  rw [hcall] at hd hr
  simp only at hd hr
  rcases hdget : a.dOps.get? dIdx with _ | ⟨dName, dOp⟩
  · rw [List.get?_eq_none] at hdget
    omega
  rcases hrget : a.rOps.get? rIdx with _ | ⟨rName, rOp⟩
  · rw [List.get?_eq_none] at hrget
    omega
  rcases hn1 : st.curr.nServedVal with _ | n₁
  · obtain ⟨hcs, -⟩ := hc
    rw [hn1] at hcs
    exact absurd hcs (by simp)
  rcases hdo : dOp st.curr rng₀ with ⟨destroyed, rng₁⟩
  have hdes : ExposesAll destroyed := by
    have h0 : ExposesAll ((dOp st.curr rng₀).1) :=
      hdop _ (List.get?_mem hdget) st.curr rng₀
    rw [hdo] at h0
    exact h0
  rcases hn2 : destroyed.nServedVal with _ | n₂
  · obtain ⟨hds, -⟩ := hdes
    rw [hn2] at hds
    exact absurd hds (by simp)
  rcases hro : rOp destroyed rng₁ with ⟨cand, rng₂⟩
  have hcand : ExposesAll cand := by
    have h0 : ExposesAll ((rOp destroyed rng₁).1) :=
      hrop _ (List.get?_mem hrget) destroyed rng₁
    rw [hro] at h0
    exact h0
  rcases hn3 : cand.nServedVal with _ | n₃
  · obtain ⟨hcs, -⟩ := hcand
    rw [hn3] at hcs
    exact absurd hcs (by simp)
  obtain ⟨hevb, hevc, hevk⟩ :=
    evalCand_exposesAll a acc st.accS rng₂ st.best st.curr cand hb hc hcand hcbf
  rcases hcost : (evalCand a acc st.accS rng₂ st.best st.curr cand).curr.costVal
    with _ | cost
  · obtain ⟨-, hcs⟩ := hevc
    rw [hcost] at hcs
    exact absurd hcs (by simp)
  have hbody : ∃ st', iterBody a sel acc clock st = .ok st'
      ∧ st'.best = (evalCand a acc st.accS rng₂ st.best st.curr cand).best
      ∧ st'.curr = (evalCand a acc st.accS rng₂ st.best st.curr cand).curr := by
    unfold iterBody
    simp only [hcall, hdget, hrget, hn1, hdo, hn2, hro, hn3, hcost]
    exact ⟨_, rfl, rfl, rfl⟩
  obtain ⟨st', hst', hbb, hbc⟩ := hbody
  exact ⟨st', hst', hbb ▸ hevb, hbc ▸ hevc⟩

theorem iterLoop_ok_of_exposesAll {σ α : Type} (a : ALNSInstance)
    (sel : OperatorSelectionScheme σ) (acc : AcceptanceCriterion α) (clock : ℕ → ℚ)
    (hsel : ∀ ss r b c, ((sel.call ss r b c).1).1 < a.dOps.length ∧
      ((sel.call ss r b c).1).2 < a.rOps.length)
    (hdop : ∀ p ∈ a.dOps, ∀ s r, ExposesAll ((p.2 s r).1))
    (hrop : ∀ p ∈ a.rOps, ∀ s r, ExposesAll ((p.2 s r).1))
    (hcbf : ∀ o f, a.onOutcome o = some f → ∀ s r, ExposesAll ((f s r).1)) :
    ∀ (fuel : ℕ) (st : LoopSt σ α), ExposesAll st.best → ExposesAll st.curr →
      ∃ fin, iterLoop a sel acc clock fuel st = .ok fin := by
  intro fuel
  induction fuel with
  | zero => exact fun st _ _ => ⟨_, rfl⟩
  | succ k ih =>
      intro st hb hc
      obtain ⟨st₁, hst₁, hb₁, hc₁⟩ := iterBody_ok_of_exposesAll a sel acc clock
        hsel hdop hrop hcbf { st with events := st.events ++ [Event.stopCall] } hb hc
      obtain ⟨fin, hfin⟩ := ih st₁ hb₁ hc₁
      refine ⟨fin, ?_⟩
      unfold iterLoop
      rw [hst₁]
      exact hfin

theorem iterate_ok_elim {σ α : Type} (a : ALNSInstance) (init : AState)
    (sel : OperatorSelectionScheme σ) (selS : σ) (acc : AcceptanceCriterion α)
    (accS : α) (m : ℕ) (clock : ℕ → ℚ) (evs : List Event) (out : RunOut)
    (h : iterate a init sel selS acc accS (.maxIterations m) clock = (evs, .ok out)) :
    1 ≤ m ∧ ∃ fin : LoopSt σ α,
      iterLoop a sel acc clock m
        { best := init, curr := init, selS := selS, accS := accS, rng := a.rng,
          clockIdx := 1, iteration := 0,
          stats := ⟨[init.objective], [clock 0], [], []⟩,
          dLog := (List.replicate m (List.replicate (a.dOps.length + 1) (0 : ℤ))).set 0
            (List.replicate (a.dOps.length + 1) (0 : ℤ)),
          rLog := (List.replicate m (List.replicate (a.rOps.length + 1) (0 : ℤ))).set 0
            (List.replicate (a.rOps.length + 1) (0 : ℤ)),
          events := [], outcomes := [], pairTrace := [], candTrace := [] } = .ok fin
      ∧ out.result = ⟨fin.best, fin.stats⟩ ∧ out.dLog = fin.dLog ∧ out.rLog = fin.rLog
      ∧ out.outcomes = fin.outcomes ∧ out.pairTrace = fin.pairTrace
      ∧ out.candTrace = fin.candTrace ∧ evs = fin.events := by
  unfold iterate at h
  split at h
  · exact absurd h (by simp)
  split at h
  · exact absurd h (by simp)
  rename_i maxIter heqStop
  injection heqStop with hm
  subst hm
  split at h
  · exact absurd h (by simp)
  rename_i dLog₁ heqd
  split at h
  · exact absurd h (by simp)
  rename_i rLog₁ heqr
  split at h
  · exact absurd h (by simp)
  rename_i fin heql
  unfold setRow0 at heqd heqr
  split at heqd
  · exact Except.noConfusion heqd
  rename_i hld
  split at heqr
  · exact Except.noConfusion heqr
  simp only [Except.ok.injEq] at heqd heqr
  subst heqd
  subst heqr
  rw [Prod.mk.injEq] at h
  obtain ⟨hevs, hok⟩ := h
  simp only [Except.ok.injEq] at hok
  subst hok
  refine ⟨?_, fin, heql, rfl, rfl, rfl, rfl, rfl, rfl, hevs.symm⟩
  simp only [List.length_replicate] at hld
  omega

theorem replicate_set_widths (m w : ℕ) :
    ∀ row ∈ (List.replicate m (List.replicate w (0 : ℤ))).set 0
      (List.replicate w (0 : ℤ)), row.length = w := by
  intro row hr
  rcases List.mem_or_eq_of_mem_set hr with hmem | heq
  · rw [List.eq_of_mem_replicate hmem]
    simp
  · subst heq
    simp

/-! ## Lemmas about `ALNS.__init__` and the filesystem -/

theorem removeFiles_spec : ∀ (names : List String) (fs : FileSys),
    fs.files.Nodup → names.Nodup →
    (∀ f ∈ fs.files, f.1 = screenshotsFolder → f.2 ∈ names) →
    (∀ n ∈ names, (screenshotsFolder, n) ∈ fs.files) →
    ∃ fs', removeFiles fs names = .ok fs'
      ∧ fs'.dirs = fs.dirs
      ∧ (∀ f ∈ fs'.files, f.1 ≠ screenshotsFolder)
      ∧ (∀ f ∈ fs.files, f.1 ≠ screenshotsFolder → f ∈ fs'.files)
      ∧ (∀ f ∈ fs'.files, f ∈ fs.files) := by
  intro names
  induction names with
  | nil =>
      intro fs h1 h2 h3 h4
      refine ⟨fs, rfl, rfl, ?_, fun f hf _ => hf, fun f hf => hf⟩
      intro f hf hfol
      have := h3 f hf hfol
      simp at this
  | cons n rest ih =>
      intro fs h1 h2 h3 h4
      have hmem : (screenshotsFolder, n) ∈ fs.files := h4 n (by simp)
      have hnin : n ∉ rest := (List.nodup_cons.mp h2).1
      have h2' : rest.Nodup := (List.nodup_cons.mp h2).2
      have h1' : (fs.files.erase (screenshotsFolder, n)).Nodup := h1.erase _
      have h3' : ∀ f ∈ fs.files.erase (screenshotsFolder, n),
          f.1 = screenshotsFolder → f.2 ∈ rest := by
        intro f hf hfol
        obtain ⟨hne, hfm⟩ := (List.Nodup.mem_erase_iff h1).mp hf
        have hin := h3 f hfm hfol
        rcases List.mem_cons.mp hin with hEq | hin
        · exact absurd (Prod.ext hfol hEq) hne
        · exact hin
      have h4' : ∀ n' ∈ rest,
          (screenshotsFolder, n') ∈ fs.files.erase (screenshotsFolder, n) := by
        intro n' hn'
        rw [List.Nodup.mem_erase_iff h1]
        refine ⟨?_, h4 n' (by simp [hn'])⟩
        intro hEq
        have : n' = n := congrArg Prod.snd hEq
        exact hnin (this ▸ hn')
      obtain ⟨fs', hrf, hdirs, hnone, hkeep, hsub⟩ :=
        ih { fs with files := fs.files.erase (screenshotsFolder, n) } h1' h2' h3' h4'
      refine ⟨fs', ?_, hdirs, hnone, ?_, ?_⟩
      · unfold removeFiles
        rw [if_pos hmem]
        exact hrf
      · intro f hf hfol
        refine hkeep f ?_ hfol
        rw [List.Nodup.mem_erase_iff h1]
        refine ⟨?_, hf⟩
        intro hEq
        exact hfol (congrArg Prod.fst hEq)
      · intro f hf
        exact List.mem_of_mem_erase (hsub f hf)

theorem iterBody_clock_irrel {σ α : Type} (a : ALNSInstance)
    (sel : OperatorSelectionScheme σ) (acc : AcceptanceCriterion α)
    (clock₁ clock₂ : ℕ → ℚ) (st : LoopSt σ α) (rt : List ℚ) :
    iterBody a sel acc clock₂ (setRuntimes st rt) =
      match iterBody a sel acc clock₁ st with
      | .error e => .error e
      | .ok st' => .ok (setRuntimes st' (rt ++ [clock₂ st.clockIdx])) := by
  rcases hcall : sel.call st.selS st.rng st.best st.curr with ⟨⟨dIdx, rIdx⟩, rng₀⟩
  rcases hdget : a.dOps.get? dIdx with _ | ⟨dName, dOp⟩
  all_goals simp only [List.get?_eq_getElem?] at hdget
  · unfold iterBody
    simp [setRuntimes, Statistics.withRuntimes, hcall, hdget]
  rcases hrget : a.rOps.get? rIdx with _ | ⟨rName, rOp⟩
  all_goals simp only [List.get?_eq_getElem?] at hrget
  · unfold iterBody
    simp [setRuntimes, Statistics.withRuntimes, hcall, hdget, hrget]
  rcases hn1 : st.curr.nServedVal with _ | n₁
  · unfold iterBody
    simp [setRuntimes, Statistics.withRuntimes, hcall, hdget, hrget, hn1]
  rcases hdo : dOp st.curr rng₀ with ⟨destroyed, rng₁⟩
  rcases hn2 : destroyed.nServedVal with _ | n₂
  · unfold iterBody
    simp [setRuntimes, Statistics.withRuntimes, hcall, hdget, hrget, hn1, hdo, hn2]
  rcases hro : rOp destroyed rng₁ with ⟨cand, rng₂⟩
  rcases hn3 : cand.nServedVal with _ | n₃
  · unfold iterBody
    simp [setRuntimes, Statistics.withRuntimes, hcall, hdget, hrget, hn1, hdo,
      hn2, hro, hn3]
  rcases hcost : (evalCand a acc st.accS rng₂ st.best st.curr cand).curr.costVal
    with _ | cost
  · unfold iterBody
    simp [setRuntimes, Statistics.withRuntimes, hcall, hdget, hrget, hn1, hdo,
      hn2, hro, hn3, hcost]
  unfold iterBody
  simp [setRuntimes, Statistics.withRuntimes, hcall, hdget, hrget, hn1, hdo,
    hn2, hro, hn3, hcost, Statistics.collectObjective,
    Statistics.collectRuntime, Statistics.collectDestroyOperator,
    Statistics.collectRepairOperator]

theorem iterLoop_clock_irrel {σ α : Type} (a : ALNSInstance)
    (sel : OperatorSelectionScheme σ) (acc : AcceptanceCriterion α)
    (clock₁ clock₂ : ℕ → ℚ) :
    ∀ (fuel : ℕ) (st : LoopSt σ α) (rt : List ℚ),
      iterLoop a sel acc clock₂ fuel (setRuntimes st rt) =
        match iterLoop a sel acc clock₁ fuel st with
        | .error e => .error e
        | .ok fin =>
            .ok (setRuntimes fin (rt ++ (List.range' st.clockIdx fuel).map clock₂)) := by
  intro fuel
  induction fuel with
  | zero =>
      intro st rt
      unfold iterLoop
      simp [setRuntimes, Statistics.withRuntimes]
  | succ k ih =>
      intro st rt
      unfold iterLoop
      rw [show ({ setRuntimes st rt with
            events := (setRuntimes st rt).events ++ [Event.stopCall] } : LoopSt σ α) =
          setRuntimes { st with events := st.events ++ [Event.stopCall] } rt from rfl]
      rw [iterBody_clock_irrel a sel acc clock₁ clock₂
        { st with events := st.events ++ [Event.stopCall] } rt]
      rcases hbody : iterBody a sel acc clock₁
          { st with events := st.events ++ [Event.stopCall] } with e | st₁
      · simp
      · simp only []
        rw [ih st₁ (rt ++ [clock₂ st.clockIdx])]
        rcases hloop : iterLoop a sel acc clock₁ k st₁ with e | fin
        · simp
        · obtain ⟨-, -, hclk, -⟩ := iterBody_ok_spec a sel acc clock₁ _ _ hbody
          have hclk' : st₁.clockIdx = st.clockIdx + 1 := hclk
          simp [hclk', List.range'_succ]

/-! ## Claim theorems -/

/-- C1: the outcome classification and incumbent transition of
`_eval_cand`/`_determine_outcome` follow the table of spec §4.3: the
outcome is BEST exactly when `cand.objective() < best.objective()`,
regardless of the acceptance verdict; otherwise BETTER exactly when the
candidate is accepted and improves on `curr`; otherwise ACCEPT exactly
when accepted; otherwise REJECT.  The new `(best, curr)` pair is
`(cand, cand)` on BEST, `(best, cand)` on BETTER and ACCEPT, and the
unchanged `(best, curr)` on REJECT; all comparisons are strict, so ties
never produce BETTER or BEST. -/
theorem c1_outcome_classification_and_transition {α : Type} (a : ALNSInstance)
    (acc : AcceptanceCriterion α) (accS : α) (rng : Rng) (best curr cand : AState) :
    ((evalCand a acc accS rng best curr cand).outcome = Outcome.BEST ↔
      cand.objective < best.objective)
    ∧ ((evalCand a acc accS rng best curr cand).outcome = Outcome.BETTER ↔
      (¬ cand.objective < best.objective ∧
        ((acc.call accS rng best curr cand).1).1 = true ∧
        cand.objective < curr.objective))
    ∧ ((evalCand a acc accS rng best curr cand).outcome = Outcome.ACCEPT ↔
      (¬ cand.objective < best.objective ∧
        ((acc.call accS rng best curr cand).1).1 = true ∧
        ¬ cand.objective < curr.objective))
    ∧ ((evalCand a acc accS rng best curr cand).outcome = Outcome.REJECT ↔
      (¬ cand.objective < best.objective ∧
        ((acc.call accS rng best curr cand).1).1 = false))
    ∧ (cand.objective = best.objective →
      (evalCand a acc accS rng best curr cand).outcome ≠ Outcome.BEST)
    ∧ (cand.objective = curr.objective →
      (evalCand a acc accS rng best curr cand).outcome ≠ Outcome.BETTER)
    ∧ ((evalCand a acc accS rng best curr cand).outcome = Outcome.BEST →
      ((evalCand a acc accS rng best curr cand).best,
       (evalCand a acc accS rng best curr cand).curr) =
        ((evalCand a acc accS rng best curr cand).cand,
         (evalCand a acc accS rng best curr cand).cand))
    ∧ (((evalCand a acc accS rng best curr cand).outcome = Outcome.BETTER ∨
        (evalCand a acc accS rng best curr cand).outcome = Outcome.ACCEPT) →
      ((evalCand a acc accS rng best curr cand).best,
       (evalCand a acc accS rng best curr cand).curr) =
        (best, (evalCand a acc accS rng best curr cand).cand))
    ∧ ((evalCand a acc accS rng best curr cand).outcome = Outcome.REJECT →
      ((evalCand a acc accS rng best curr cand).best,
       (evalCand a acc accS rng best curr cand).curr) = (best, curr)) := by
  have ho := evalCand_outcome a acc accS rng best curr cand
  obtain ⟨ht1, ht2, ht3⟩ := evalCand_transition a acc accS rng best curr cand
  rcases hacc : acc.call accS rng best curr cand with ⟨⟨acpt, aS⟩, r1⟩
  rw [hacc] at ho
  refine ⟨?_, ?_, ?_, ?_, ?_, ?_, ht1, ht2, ht3⟩
  · rw [ho]
    exact classifyOutcome_eq_BEST_iff acpt best curr cand
  · rw [ho]
    exact classifyOutcome_eq_BETTER_iff acpt best curr cand
  · rw [ho]
    exact classifyOutcome_eq_ACCEPT_iff acpt best curr cand
  · rw [ho]
    have := classifyOutcome_eq_REJECT_iff acpt best curr cand
    simpa using this
  · intro hEq hbest
    rw [ho] at hbest
    have := (classifyOutcome_eq_BEST_iff acpt best curr cand).mp hbest
    rw [hEq] at this
    exact lt_irrefl _ this
  · intro hEq hbetter
    rw [ho] at hbetter
    have := (classifyOutcome_eq_BETTER_iff acpt best curr cand).mp hbetter
    rw [hEq] at this
    exact lt_irrefl _ this.2.2

/-- Witness for C1 at a concrete input: a candidate of objective `9`
against best and curr of objective `10`, with an always-reject acceptance
criterion, is classified BEST and installed as both best and curr. -/
theorem c1_witness :
    (evalCand aW accRej () 0 (stW 10) (stW 10) (stW 9)).outcome = Outcome.BEST
    ∧ ((evalCand aW accRej () 0 (stW 10) (stW 10) (stW 9)).best,
       (evalCand aW accRej () 0 (stW 10) (stW 10) (stW 9)).curr) =
        ((evalCand aW accRej () 0 (stW 10) (stW 10) (stW 9)).cand,
         (evalCand aW accRej () 0 (stW 10) (stW 10) (stW 9)).cand) := by
  have h := c1_outcome_classification_and_transition aW accRej () 0
    (stW 10) (stW 10) (stW 9)
  have hb : (evalCand aW accRej () 0 (stW 10) (stW 10) (stW 9)).outcome
      = Outcome.BEST := h.1.mpr (by decide)
  exact ⟨hb, (h.2.2.2.2.2.2.1) hb⟩

/-- C2 counterexample: with an `on_best` callback that rewrites the
candidate's objective to `30` in place (sanctioned by spec §4.4 and never
re-validated), a run starting at objective `10` that produces a candidate
of objective `9` ends with `best` at objective `30`: the best-objective
trace increases and `best` is not the minimum objective observed. -/
theorem c2_counterexample :
    ((iterate aCb (stW 10) selW () accW () (.maxIterations 1) clkW).2.map
      (fun o => (o.pairTrace.map (fun pr => pr.1.objectiveVal), o.candTrace)))
      = .ok ([30], [9])
    ∧ ¬ List.Chain' (fun x y => y ≤ x)
        ((stW 10).objectiveVal :: [(30 : ℚ)])
    ∧ (30 : ℚ) ≠ min (stW 10).objectiveVal 9 := by
  refine ⟨by decide, ?_, by decide⟩
  rw [List.chain'_cons]
  norm_num [stW]

/-- C2 (amended): provided every registered callback preserves the
candidate's objective (in particular when no callbacks are registered),
after each iteration `best` equals the minimum objective observed across
the initial solution and all candidates produced so far, and the
best-objective trace is non-increasing. -/
theorem c2_best_is_min_and_trace_nonincreasing {σ α : Type} (a : ALNSInstance)
    (init : AState) (sel : OperatorSelectionScheme σ) (selS : σ)
    (acc : AcceptanceCriterion α) (accS : α) (m : ℕ) (clock : ℕ → ℚ)
    (evs : List Event) (out : RunOut)
    (h : iterate a init sel selS acc accS (.maxIterations m) clock = (evs, .ok out))
    (hcb : CallbackObjPreserving a) :
    (∀ k p, out.pairTrace.get? k = some p →
      p.1.objectiveVal = (out.candTrace.take (k + 1)).foldl min init.objectiveVal)
    ∧ List.Chain' (fun x y => y ≤ x)
        (init.objectiveVal :: out.pairTrace.map (fun pr => pr.1.objectiveVal)) := by
  obtain ⟨-, fin, hloop, -, -, -, -, hpt, hct, -⟩ :=
    iterate_ok_elim a init sel selS acc accS m clock evs out h
  have hbm := iterLoop_ok_bestmin a sel acc clock init.objectiveVal hcb m _ fin hloop
    rfl rfl (by intro k p hk; simp at hk) (by simp) (by simp [AState.objective])
  rw [hpt, hct]
  exact hbm

/-- C3: two runs of `iterate` with identically seeded random streams,
identical operators and identical collaborator instances — executed at
different wall-clock times, i.e. under arbitrary, unrelated clocks —
produce identical collaborator-invocation logs, identical `(best, curr)`
trajectories and identical outcome sequences; indeed every component of
the run except the runtime stamps is identical.  Within each successful
iteration the shared random stream is consumed in the fixed order
selection scheme → destroy operator → repair operator → acceptance
criterion → callback, as witnessed by the recorded events of the loop
body. -/
theorem c3_determinism_and_consumption_order {σ α : Type} (a : ALNSInstance)
    (init : AState) (sel : OperatorSelectionScheme σ) (selS : σ)
    (acc : AcceptanceCriterion α) (accS : α) (stop : StoppingCriterion)
    (clock₁ clock₂ : ℕ → ℚ) :
    ((iterate a init sel selS acc accS stop clock₁).2.map
        (fun o => o.pairTrace)) =
      ((iterate a init sel selS acc accS stop clock₂).2.map
        (fun o => o.pairTrace))
    ∧ ((iterate a init sel selS acc accS stop clock₁).2.map
        (fun o => o.outcomes)) =
      ((iterate a init sel selS acc accS stop clock₂).2.map
        (fun o => o.outcomes))
    ∧ (iterate a init sel selS acc accS stop clock₁).1 =
      (iterate a init sel selS acc accS stop clock₂).1
    ∧ ((iterate a init sel selS acc accS stop clock₁).2.map RunOut.stripRt) =
      ((iterate a init sel selS acc accS stop clock₂).2.map RunOut.stripRt)
    ∧ (∀ (st st' : LoopSt σ α), iterBody a sel acc clock₁ st = .ok st' →
        ∃ tail, st'.events = st.events ++
            ([Event.selectCall, Event.destroyCall, Event.repairCall,
              Event.acceptCall] ++ tail)
          ∧ (tail = [] ∨ tail = [Event.callbackCall])) := by
  have horder : ∀ (st st' : LoopSt σ α), iterBody a sel acc clock₁ st = .ok st' →
      ∃ tail, st'.events = st.events ++
          ([Event.selectCall, Event.destroyCall, Event.repairCall,
            Event.acceptCall] ++ tail)
        ∧ (tail = [] ∨ tail = [Event.callbackCall]) := by
    intro st st' hbody
    obtain ⟨-, -, -, -, -, -, -, -, -, htail, -⟩ :=
      iterBody_ok_spec a sel acc clock₁ st st' hbody
    exact htail
  have hmain : ((iterate a init sel selS acc accS stop clock₁).2.map
        (fun o => o.pairTrace)) =
      ((iterate a init sel selS acc accS stop clock₂).2.map
        (fun o => o.pairTrace))
    ∧ ((iterate a init sel selS acc accS stop clock₁).2.map
        (fun o => o.outcomes)) =
      ((iterate a init sel selS acc accS stop clock₂).2.map
        (fun o => o.outcomes))
    ∧ (iterate a init sel selS acc accS stop clock₁).1 =
      (iterate a init sel selS acc accS stop clock₂).1
    ∧ ((iterate a init sel selS acc accS stop clock₁).2.map RunOut.stripRt) =
      ((iterate a init sel selS acc accS stop clock₂).2.map RunOut.stripRt) := by
    by_cases hreg : (a.dOps.length = 0 ∨ a.rOps.length = 0)
    · unfold iterate
      simp only [if_pos hreg]
      refine ⟨?_, ?_, ?_, ?_⟩ <;> first | rfl | trivial
    · cases stop with
      | otherKind =>
          unfold iterate
          simp only [if_neg hreg]
          refine ⟨?_, ?_, ?_, ?_⟩ <;> first | rfl | trivial
      | maxIterations m =>
          unfold iterate
          simp only [if_neg hreg]
          rcases hd : setRow0 (List.replicate m
              (List.replicate (a.dOps.length + 1) (0 : ℤ))) (a.dOps.length + 1)
            with e | dLog₁
          · simp
          rcases hr : setRow0 (List.replicate m
              (List.replicate (a.rOps.length + 1) (0 : ℤ))) (a.rOps.length + 1)
            with e | rLog₁
          · simp
          dsimp only
          rw [show ({ best := init, curr := init, selS := selS, accS := accS,
                      rng := a.rng, clockIdx := 1, iteration := 0,
                      stats := ⟨[init.objective], [clock₂ 0], [], []⟩,
                      dLog := dLog₁, rLog := rLog₁, events := [], outcomes := [],
                      pairTrace := [], candTrace := [] } : LoopSt σ α) =
              setRuntimes
                { best := init, curr := init, selS := selS, accS := accS,
                  rng := a.rng, clockIdx := 1, iteration := 0,
                  stats := ⟨[init.objective], [clock₁ 0], [], []⟩,
                  dLog := dLog₁, rLog := rLog₁, events := [], outcomes := [],
                  pairTrace := [], candTrace := [] } [clock₂ 0] from rfl]
          rw [iterLoop_clock_irrel a sel acc clock₁ clock₂ m _ [clock₂ 0]]
          rcases hloop : iterLoop a sel acc clock₁ m
              { best := init, curr := init, selS := selS, accS := accS,
                rng := a.rng, clockIdx := 1, iteration := 0,
                stats := ⟨[init.objective], [clock₁ 0], [], []⟩,
                dLog := dLog₁, rLog := rLog₁, events := [], outcomes := [],
                pairTrace := [], candTrace := [] } with e | fin
          · rcases e with ⟨e, evs⟩
            simp
          · simp [Except.map, setRuntimes, Statistics.withRuntimes,
              RunOut.stripRt]
  exact ⟨hmain.1, hmain.2.1, hmain.2.2.1, hmain.2.2.2, horder⟩

/-- Witness for C3 at a concrete input: the same configuration run under
two different clocks (a constant clock and the identity clock) produces
identical trajectories, outcome sequences, event logs and
runtime-stripped outputs, and the event log of one successful body
iteration shows the fixed consumption order. -/
theorem c3_witness :
    ((iterate aW (stW 10) selW () accW () (.maxIterations 2) clkW).2.map
        (fun o => o.pairTrace)) =
      ((iterate aW (stW 10) selW () accW () (.maxIterations 2) clkId).2.map
        (fun o => o.pairTrace))
    ∧ ((iterate aW (stW 10) selW () accW () (.maxIterations 2) clkW).2.map
        (fun o => o.outcomes)) =
      ((iterate aW (stW 10) selW () accW () (.maxIterations 2) clkId).2.map
        (fun o => o.outcomes))
    ∧ (iterate aW (stW 10) selW () accW () (.maxIterations 2) clkW).1 =
      (iterate aW (stW 10) selW () accW () (.maxIterations 2) clkId).1
    ∧ ((iterate aW (stW 10) selW () accW () (.maxIterations 2) clkW).2.map
        RunOut.stripRt) =
      ((iterate aW (stW 10) selW () accW () (.maxIterations 2) clkId).2.map
        RunOut.stripRt)
    ∧ ∃ tail, stB.events = st0W.events ++
        ([Event.selectCall, Event.destroyCall, Event.repairCall,
          Event.acceptCall] ++ tail)
      ∧ (tail = [] ∨ tail = [Event.callbackCall]) := by
  have h := c3_determinism_and_consumption_order aW (stW 10) selW () accW ()
    (.maxIterations 2) clkW clkId
  exact ⟨h.1, h.2.1, h.2.2.1, h.2.2.2.1, h.2.2.2.2 st0W stB (by decide)⟩

/-- C4: calling `iterate` with an empty destroy or repair registry raises
`ValueError` before the loop and before any collaborator is invoked (the
ghost event log is empty); no partial run occurs. -/
theorem c4_missing_operators_value_error {σ α : Type} (a : ALNSInstance)
    (init : AState) (sel : OperatorSelectionScheme σ) (selS : σ)
    (acc : AcceptanceCriterion α) (accS : α) (stop : StoppingCriterion)
    (clock : ℕ → ℚ) (h : a.dOps = [] ∨ a.rOps = []) :
    iterate a init sel selS acc accS stop clock =
      ([], .error (.valueError "Missing destroy or repair operators.")) := by
  unfold iterate
  rcases h with h | h <;> simp [h]

/-- Witness for C4: the empty instance fails immediately. -/
theorem c4_witness :
    iterate aEmpty (stW 10) selW () accW () (.maxIterations 3) clkW =
      ([], .error (.valueError "Missing destroy or repair operators.")) :=
  c4_missing_operators_value_error aEmpty (stW 10) selW () accW ()
    (.maxIterations 3) clkW (Or.inl rfl)

/-- C5: calling `iterate` with a stopping criterion that is not the fixed
maximum-iteration-budget kind raises an error before any iteration runs —
the ghost event log is empty, so no collaborator and no iteration ever
ran, and there is no silent fallback to another stopping behaviour. -/
theorem c5_unsupported_stop_kind_error {σ α : Type} (a : ALNSInstance)
    (init : AState) (sel : OperatorSelectionScheme σ) (selS : σ)
    (acc : AcceptanceCriterion α) (accS : α) (stop : StoppingCriterion)
    (clock : ℕ → ℚ) (h : stop = .otherKind) :
    ∃ e, iterate a init sel selS acc accS stop clock = ([], .error e) := by
  subst h
  unfold iterate
  split
  · exact ⟨_, rfl⟩
  · exact ⟨_, rfl⟩

/-- Witness for C5: a non-budget stopping criterion fails immediately on a
fully configured instance. -/
theorem c5_witness :
    ∃ e, iterate aW (stW 10) selW () accW () .otherKind clkW = ([], .error e) :=
  c5_unsupported_stop_kind_error aW (stW 10) selW () accW () .otherKind clkW rfl

/-- Witness for C2 (amended) at a concrete input: a one-iteration run with
no callbacks registered. -/
theorem c2_witness :
    (∀ k p, outW.pairTrace.get? k = some p →
      p.1.objectiveVal = (outW.candTrace.take (k + 1)).foldl min (stW 10).objectiveVal)
    ∧ List.Chain' (fun x y => y ≤ x)
        ((stW 10).objectiveVal :: outW.pairTrace.map (fun pr => pr.1.objectiveVal)) := by
  have hcb : CallbackObjPreserving aW := by
    intro o f hf
    simp [aW] at hf
  have h : iterate aW (stW 10) selW () accW () (.maxIterations 1) clkW =
      (evsW, .ok outW) := by decide
  have := c2_best_is_min_and_trace_nonincreasing aW (stW 10) selW () accW ()
    1 clkW evsW outW h hcb
  simpa [AState.objective] using this

/-- C6 counterexample: a zero-iteration budget does not complete with a
one-element objective trace; `iterate` raises `IndexError` while writing
row 0 of the zero-row operator log, before the loop starts. -/
theorem c6_counterexample :
    iterate aW (stW 10) selW () accW () (.maxIterations 0) clkW =
      ([], .error .indexError) := by decide

/-- C6 (amended): every completed run has a budget `m ≥ 1`, performs
exactly `m` iterations, and records an objective trace of length `m + 1`
whose first element is the initial solution's objective, and a runtime
trace of the same length that is non-decreasing whenever the clock is
monotone; a zero-iteration budget never completes (it raises `IndexError`
before the loop, as the counterexample shows). -/
theorem c6_trace_lengths_and_runtimes {σ α : Type} (a : ALNSInstance)
    (init : AState) (sel : OperatorSelectionScheme σ) (selS : σ)
    (acc : AcceptanceCriterion α) (accS : α) (m : ℕ) (clock : ℕ → ℚ)
    (evs : List Event) (out : RunOut)
    (h : iterate a init sel selS acc accS (.maxIterations m) clock = (evs, .ok out))
    (hclock : Monotone clock) :
    1 ≤ m
    ∧ out.result.statistics.objectives.length = m + 1
    ∧ out.result.statistics.objectives.head? = some init.objective
    ∧ out.result.statistics.runtimes.length = m + 1
    ∧ List.Chain' (· ≤ ·) out.result.statistics.runtimes := by
  obtain ⟨hm, fin, hloop, hres, -, -, -, -, -, -⟩ :=
    iterate_ok_elim a init sel selS acc accS m clock evs out h
  obtain ⟨⟨l, hl₀, hlen⟩, hrt₀⟩ := iterLoop_ok_stats a sel acc clock m _ fin hloop
  have hl : fin.stats.objectives = [init.objective] ++ l := hl₀
  have hrt : fin.stats.runtimes = [clock 0] ++ (List.range' 1 m).map clock := hrt₀
  have hchain : List.Chain' (· ≤ ·) ((List.range' 0 (m + 1)).map clock) :=
    chain_le_map_clock clock hclock (m + 1) 0
  rw [List.range'_succ, List.map_cons] at hchain
  refine ⟨hm, ?_, ?_, ?_, ?_⟩
  · rw [hres]
    simp [hl, hlen]
  · rw [hres]
    simp [hl]
  · rw [hres]
    simp [hrt]
  · rw [hres]
    simpa [hrt] using hchain

/-- Witness for C6 (amended) at a concrete input: the one-iteration run. -/
theorem c6_witness :
    1 ≤ 1
    ∧ outW.result.statistics.objectives.length = 1 + 1
    ∧ outW.result.statistics.objectives.head? = some (stW 10).objective
    ∧ outW.result.statistics.runtimes.length = 1 + 1
    ∧ List.Chain' (· ≤ ·) outW.result.statistics.runtimes :=
  c6_trace_lengths_and_runtimes aW (stW 10) selW () accW () 1 clkW evsW outW
    (by decide) (fun _ _ _ => le_refl 0)

/-- C7 counterexample: two runs that agree on the returned `Result` pair
(best solution and statistics) still return different values, because the
Python return at `ALNS.py:354` is the triple
`(Result(best, stats), d_operators_log, r_operators_log)` and the two
repair operators differ only in their served-customers count, which lands
in `r_operators_log` but not in the statistics. -/
theorem c7_counterexample :
    ((iterate aWorse (stW 10) selW () accW () (.maxIterations 1) clkW).2.map
      (fun o => o.result)) =
    ((iterate aWorse' (stW 10) selW () accW () (.maxIterations 1) clkW).2.map
      (fun o => o.result))
    ∧ ((iterate aWorse (stW 10) selW () accW () (.maxIterations 1) clkW).2.map
        pyReturn) ≠
      ((iterate aWorse' (stW 10) selW () accW () (.maxIterations 1) clkW).2.map
        pyReturn) := by
  exact ⟨by decide, by decide⟩

/-- C7 (amended): a completed run of `iterate` returns the triple of the
`Result` pair (best solution and statistics) together with the destroy and
repair operator-log matrices, whose shapes are `m × (#destroy + 1)` and
`m × (#repair + 1)` for an `m`-iteration budget. -/
theorem c7_returns_result_and_logs {σ α : Type} (a : ALNSInstance)
    (init : AState) (sel : OperatorSelectionScheme σ) (selS : σ)
    (acc : AcceptanceCriterion α) (accS : α) (m : ℕ) (clock : ℕ → ℚ)
    (evs : List Event) (out : RunOut)
    (h : iterate a init sel selS acc accS (.maxIterations m) clock = (evs, .ok out)) :
    pyReturn out = (⟨out.result.best, out.result.statistics⟩, out.dLog, out.rLog)
    ∧ out.dLog.length = m
    ∧ (∀ row ∈ out.dLog, row.length = a.dOps.length + 1)
    ∧ out.rLog.length = m
    ∧ (∀ row ∈ out.rLog, row.length = a.rOps.length + 1) := by
  obtain ⟨hm, fin, hloop, -, hdl, hrl, -, -, -, -⟩ :=
    iterate_ok_elim a init sel selS acc accS m clock evs out h
  obtain ⟨hdl', hrl', hdw, hrw⟩ := iterLoop_ok_logs a sel acc clock m _ fin hloop
  refine ⟨rfl, ?_, ?_, ?_, ?_⟩
  · rw [hdl, hdl']
    simp
  · rw [hdl]
    exact hdw _ (replicate_set_widths m (a.dOps.length + 1))
  · rw [hrl, hrl']
    simp
  · rw [hrl]
    exact hrw _ (replicate_set_widths m (a.rOps.length + 1))

/-- Witness for C7 (amended) at a concrete input: the one-iteration run
has 1×2 log matrices. -/
theorem c7_witness :
    pyReturn outW = (⟨outW.result.best, outW.result.statistics⟩, outW.dLog, outW.rLog)
    ∧ outW.dLog.length = 1
    ∧ (∀ row ∈ outW.dLog, row.length = aW.dOps.length + 1)
    ∧ outW.rLog.length = 1
    ∧ (∀ row ∈ outW.rLog, row.length = aW.rOps.length + 1) :=
  c7_returns_result_and_logs aW (stW 10) selW () accW () 1 clkW evsW outW
    (by decide)

/-- C8 counterexample: a run whose solution states expose only
`objective()` does not succeed — the engine unconditionally calls
`n_served_customers()` on the incumbent (`ALNS.py:312`) and fails with
`AttributeError`. -/
theorem c8_counterexample :
    (iterate aW (stBare 10) selW () accW () (.maxIterations 1) clkW).2 =
      .error (.attributeError "n_served_customers") := by decide

/-- C8 (amended): beyond `objective()`, the engine also reads the
served-customers diagnostic count (unconditionally) and the incumbent's
`cost` attribute for the operator logs; a run succeeds for any `State`
that exposes `objective()`, `n_served_customers()` and `cost`, given a
positive iteration budget and a selection scheme returning in-range
indices. -/
theorem c8_succeeds_with_three_attributes {σ α : Type} (a : ALNSInstance)
    (init : AState) (sel : OperatorSelectionScheme σ) (selS : σ)
    (acc : AcceptanceCriterion α) (accS : α) (m : ℕ) (clock : ℕ → ℚ)
    (hm : 1 ≤ m)
    (hsel : ∀ ss r b c, ((sel.call ss r b c).1).1 < a.dOps.length ∧
      ((sel.call ss r b c).1).2 < a.rOps.length)
    (hinit : ExposesAll init)
    (hdop : ∀ p ∈ a.dOps, ∀ s r, ExposesAll ((p.2 s r).1))
    (hrop : ∀ p ∈ a.rOps, ∀ s r, ExposesAll ((p.2 s r).1))
    (hcbf : ∀ o f, a.onOutcome o = some f → ∀ s r, ExposesAll ((f s r).1)) :
    ∃ evs out, iterate a init sel selS acc accS (.maxIterations m) clock =
      (evs, .ok out) := by
  have hdnz : ¬ a.dOps.length = 0 := by
    have := (hsel selS a.rng init init).1
    omega
  have hrnz : ¬ a.rOps.length = 0 := by
    have := (hsel selS a.rng init init).2
    omega
  have hsrd : setRow0 (List.replicate m (List.replicate (a.dOps.length + 1) (0 : ℤ)))
      (a.dOps.length + 1) =
      .ok ((List.replicate m (List.replicate (a.dOps.length + 1) (0 : ℤ))).set 0
        (List.replicate (a.dOps.length + 1) (0 : ℤ))) := by
    unfold setRow0
    rw [if_neg (by simp; omega)]
  have hsrr : setRow0 (List.replicate m (List.replicate (a.rOps.length + 1) (0 : ℤ)))
      (a.rOps.length + 1) =
      .ok ((List.replicate m (List.replicate (a.rOps.length + 1) (0 : ℤ))).set 0
        (List.replicate (a.rOps.length + 1) (0 : ℤ))) := by
    unfold setRow0
    rw [if_neg (by simp; omega)]
  obtain ⟨fin, hfin⟩ := iterLoop_ok_of_exposesAll a sel acc clock hsel hdop hrop hcbf m
    { best := init, curr := init, selS := selS, accS := accS, rng := a.rng,
      clockIdx := 1, iteration := 0,
      stats := ⟨[init.objective], [clock 0], [], []⟩,
      dLog := (List.replicate m (List.replicate (a.dOps.length + 1) (0 : ℤ))).set 0
        (List.replicate (a.dOps.length + 1) (0 : ℤ)),
      rLog := (List.replicate m (List.replicate (a.rOps.length + 1) (0 : ℤ))).set 0
        (List.replicate (a.rOps.length + 1) (0 : ℤ)),
      events := [], outcomes := [], pairTrace := [], candTrace := [] }
    hinit hinit
  refine ⟨fin.events,
    ⟨⟨fin.best, fin.stats⟩, fin.dLog, fin.rLog, fin.outcomes,
      fin.pairTrace, fin.candTrace⟩, ?_⟩
  unfold iterate
  rw [if_neg (by simp [hdnz, hrnz])]
  simp only [hsrd, hsrr, hfin]

/-- Witness for C8 (amended) at a concrete input: the fully-attributed
one-iteration run succeeds. -/
theorem c8_witness :
    ∃ evs out, iterate aW (stW 10) selW () accW () (.maxIterations 1) clkW =
      (evs, .ok out) := by
  refine c8_succeeds_with_three_attributes aW (stW 10) selW () accW () 1 clkW
    (le_refl 1) (fun ss r b c => ⟨Nat.zero_lt_one, Nat.zero_lt_one⟩) ⟨rfl, rfl⟩
    ?_ ?_ ?_
  · intro p hp s r
    simp only [aW, List.mem_singleton] at hp
    subst hp
    exact ⟨rfl, rfl⟩
  · intro p hp s r
    simp only [aW, List.mem_singleton] at hp
    subst hp
    exact ⟨rfl, rfl⟩
  · intro o f hf
    simp [aW] at hf

/-- C9: `add_destroy_operator` registers under any non-`None` name,
including the empty string (its guard is `name is None`), whereas
`add_repair_operator` uses Python truthiness (`name if name else
op.__name__`) and falls back to the function's own name for both `None`
and the empty string; hence calling both with `name = ""` registers the
destroy operator under the key `""` but the repair operator under
`op.__name__`. -/
theorem c9_operator_naming_asymmetry (a : ALNSInstance) (op : Op) (opName : String) :
    dictGet "" ((addDestroyOperator a op opName (some "")).dOps) = some op
    ∧ (∀ s, dictGet s ((addDestroyOperator a op opName (some s)).dOps) = some op)
    ∧ dictGet opName ((addRepairOperator a op opName (some "")).rOps) = some op
    ∧ dictGet opName ((addRepairOperator a op opName none).rOps) = some op
    ∧ (∀ s, s ≠ "" → dictGet s ((addRepairOperator a op opName (some s)).rOps) = some op)
    ∧ (opName ≠ "" → dictGet "" a.rOps = none →
        dictGet "" ((addRepairOperator a op opName (some "")).rOps) = none) := by
  refine ⟨?_, ?_, ?_, ?_, ?_, ?_⟩
  · exact dictGet_dictInsert "" op a.dOps
  · exact fun s => dictGet_dictInsert s op a.dOps
  · exact dictGet_dictInsert opName op a.rOps
  · exact dictGet_dictInsert opName op a.rOps
  · intro s hs
    simp only [addRepairOperator]
    rw [if_neg hs]
    exact dictGet_dictInsert s op a.rOps
  · intro hop hnone
    simp only [addRepairOperator]
    rw [if_pos trivial]
    rw [dictGet_dictInsert_ne opName "" (Ne.symm hop) op a.rOps]
    exact hnone

/-- Witness for C9 at a concrete input: with `op.__name__ = "op"` and
`name = ""`, the destroy registry gains key `""` while the repair registry
gains key `"op"` and no key `""`. -/
theorem c9_witness :
    dictGet "" ((addDestroyOperator aEmpty dOpW "op" (some "")).dOps) = some dOpW
    ∧ dictGet "op" ((addRepairOperator aEmpty dOpW "op" (some "")).rOps) = some dOpW
    ∧ dictGet "" ((addRepairOperator aEmpty dOpW "op" (some "")).rOps) = none := by
  have h := c9_operator_naming_asymmetry aEmpty dOpW "op"
  exact ⟨h.1, h.2.2.1, h.2.2.2.2.2 (by decide) rfl⟩

/-- C10: constructing an `ALNS` instance returns empty operator registries
and an empty callback table (nothing registered, no search run), and as a
side effect creates `./plots/insertion_screenshots` when it does not
exist, and otherwise deletes every file already present inside that
directory, leaving files outside it and the directory set unchanged. -/
theorem c10_init_creates_or_empties_screenshots_dir (rng : Rng) (fs : FileSys)
    (hnodup : fs.files.Nodup)
    (hnosub : ∀ d ∈ fs.dirs, ¬ d.dropLast = screenshotsFolder) :
    (pathExists fs screenshotsFolder = false →
      ∃ fs', alnsInit rng fs = .ok (⟨rng, [], [], fun _ => none⟩, fs')
        ∧ screenshotsFolder ∈ fs'.dirs ∧ fs'.files = fs.files)
    ∧ (screenshotsFolder ∈ fs.dirs →
      ∃ fs', alnsInit rng fs = .ok (⟨rng, [], [], fun _ => none⟩, fs')
        ∧ fs'.dirs = fs.dirs
        ∧ (∀ f ∈ fs'.files, f.1 ≠ screenshotsFolder)
        ∧ (∀ f ∈ fs.files, f.1 ≠ screenshotsFolder → f ∈ fs'.files)
        ∧ (∀ f ∈ fs'.files, f ∈ fs.files)) := by
  constructor
  · intro hne
    refine ⟨makedirs fs screenshotsFolder, ?_, ?_, rfl⟩
    · unfold alnsInit
      rw [if_pos hne]
    · have hcf : fs.dirs.contains screenshotsFolder = false := by
        unfold pathExists at hne
        exact (Bool.or_eq_false_iff.mp hne).1
      unfold makedirs
      simp only [List.mem_append]
      right
      rw [List.mem_filter]
      refine ⟨by decide, by simpa using hcf⟩
  · intro hdir
    have hpe : ¬ pathExists fs screenshotsFolder = false := by
      unfold pathExists
      simp [hdir]
    have hnil : fs.dirs.filter
        (fun d' => decide (d'.dropLast = screenshotsFolder ∧ d' ≠ [])) = [] := by
      rw [List.filter_eq_nil]
      intro d hd
      simp [hnosub d hd]
    have hld : listdir fs screenshotsFolder =
        (fs.files.filter (fun f => f.1 = screenshotsFolder)).map (fun f => f.2) := by
      unfold listdir
      rw [hnil]
      simp
    have hnames : ∀ n ∈ (fs.files.filter
        (fun f => f.1 = screenshotsFolder)).map (fun f => f.2),
        (screenshotsFolder, n) ∈ fs.files := by
      intro n hn
      rw [List.mem_map] at hn
      obtain ⟨f, hf, hfn⟩ := hn
      rw [List.mem_filter] at hf
      obtain ⟨hfm, hff⟩ := hf
      have hfe : f = (screenshotsFolder, n) := Prod.ext (by simpa using hff) hfn
      exact hfe ▸ hfm
    have hall : ∀ f ∈ fs.files, f.1 = screenshotsFolder →
        f.2 ∈ (fs.files.filter (fun f => f.1 = screenshotsFolder)).map
          (fun f => f.2) := by
      intro f hf hff
      rw [List.mem_map]
      exact ⟨f, List.mem_filter.mpr ⟨hf, by simp [hff]⟩, rfl⟩
    have hnodupnames : ((fs.files.filter
        (fun f => f.1 = screenshotsFolder)).map (fun f => f.2)).Nodup := by
      refine List.Nodup.map_on ?_ (hnodup.filter _)
      intro x hx y hy hxy
      rw [List.mem_filter] at hx hy
      refine Prod.ext ?_ hxy
      have h1 : x.1 = screenshotsFolder := by simpa using hx.2
      have h2 : y.1 = screenshotsFolder := by simpa using hy.2
      rw [h1, h2]
    obtain ⟨fs', hrf, hdirs, hnone, hkeep, hsub⟩ :=
      removeFiles_spec _ fs hnodup hnodupnames hall hnames
    refine ⟨fs', ?_, hdirs, hnone, hkeep, hsub⟩
    unfold alnsInit
    rw [if_neg hpe, hld, hrf]

/-- Witness for C10 at a concrete input: a filesystem where the directory
exists with one screenshot; construction empties it and keeps the rest. -/
theorem c10_witness :
    ∃ fs', alnsInit 0 fsW = .ok (⟨0, [], [], fun _ => none⟩, fs')
      ∧ fs'.dirs = fsW.dirs
      ∧ (∀ f ∈ fs'.files, f.1 ≠ screenshotsFolder)
      ∧ (∀ f ∈ fsW.files, f.1 ≠ screenshotsFolder → f ∈ fs'.files)
      ∧ (∀ f ∈ fs'.files, f ∈ fsW.files) :=
  (c10_init_creates_or_empties_screenshots_dir 0 fsW (by decide) (by decide)).2
    (by decide)
